import Mathlib

/-!
Verification of `scripts/sync_okrs.py`, a batch job that reads OKR tracking
rows from a Notion database, resolves the Linear project linked to each row,
summarizes recent activity, and writes the summary back to Notion.

The Python source is shallowly embedded below: pure helpers become Lean
functions, the stateful Notion/Linear interactions become explicit state
passing over response values supplied as parameters, and exceptions become
`Except` / `Option` results.
-/

namespace SyncOkrs

/-- The fixed heading text `Weekly Linear update log` used by
`notion_append_weekly_log_blocks`. -/
def HEADER : String := "Weekly Linear update log"

/-! ## Character-list string helpers

These model the Python string primitives used by the script: substring
test (`in`), `str.strip`, slicing `[:n]`, and `str.splitlines`. -/

/-- Test whether the char list `p` is an initial
segment of `s` (the test underlying Python substring search). -/
def startsWithChars : List Char → List Char → Bool
  | _, [] => true
  | [], _ :: _ => false
  | c :: cs, p :: ps => c == p && startsWithChars cs ps

/-- Test whether the char list `p` occurs contiguously inside `s`. -/
def containsSub : List Char → List Char → Bool
  | [], p => p.isEmpty
  | c :: cs, p => startsWithChars (c :: cs) p || containsSub cs p

/-- Python `pat in s` on strings: substring occurrence. -/
def strContains (s pat : String) : Bool :=
  containsSub s.data pat.data

/-- Python `s[:n]` on a string: keep the first `n` characters. -/
def strTrunc (n : Nat) (s : String) : String :=
  String.mk (s.data.take n)

/-- Python `s.lower()` for the ASCII range, applied characterwise
(the script only compares ASCII status labels). -/
def strLower (s : String) : String :=
  String.mk (s.data.map Char.toLower)

/-- The whitespace set of Python `str.strip` and `str.isspace`: the ASCII
whitespace characters, the separator controls `\x1c`-`\x1f`, next line,
no-break space, and the Unicode space separators. -/
def pyIsSpace (c : Char) : Bool :=
  c == ' ' || c == '\t' || c == '\n' || c == '\r' || c == '\x0b' || c == '\x0c' ||
  c == '\x1c' || c == '\x1d' || c == '\x1e' || c == '\x1f' || c == '\u0085' ||
  c == '\u00a0' || c == '\u1680' || (0x2000 ≤ c.toNat && c.toNat ≤ 0x200a) ||
  c == '\u2028' || c == '\u2029' || c == '\u202f' || c == '\u205f' || c == '\u3000'

/-- Python `s.strip()`: drop leading and trailing whitespace. -/
def pyStrip (s : String) : String :=
  String.mk (((s.data.dropWhile pyIsSpace).reverse.dropWhile pyIsSpace).reverse)

/-- The line boundaries of Python `str.splitlines` (besides the pair
`\r\n`): line feed, carriage return, vertical tab, form feed, the file,
group and record separators, next line, and the Unicode line and
paragraph separators. -/
def isLineBoundary (c : Char) : Bool :=
  c == '\n' || c == '\r' || c == '\x0b' || c == '\x0c' || c == '\x1c' || c == '\x1d' ||
  c == '\x1e' || c == '\u0085' || c == '\u2028' || c == '\u2029'

/-- Worker for `splitlines`: `cur` is the reversed current line, the second
argument is the remaining input.  `\r\n` counts as a single boundary; a
boundary at the very end does not open a final empty line, matching
Python `str.splitlines`. -/
def splitlinesGo (cur : List Char) : List Char → List (List Char)
  | [] => [cur.reverse]
  | '\r' :: '\n' :: rest =>
      cur.reverse :: (if rest.isEmpty then [] else splitlinesGo [] rest)
  | c :: rest =>
      if isLineBoundary c then cur.reverse :: (if rest.isEmpty then [] else splitlinesGo [] rest)
      else splitlinesGo (c :: cur) rest

/-- Python `s.splitlines()`. -/
def splitlines (s : String) : List String :=
  match s.data with
  | [] => []
  | cs => (splitlinesGo [] cs).map String.mk

/-! ## `bucket_issue` — the classification algorithm -/

/-- Translation of `bucket_issue(state_type, state_name)`: classify a work
item from its Linear status type code and status label.  Absent values
(`None` in Python, mapped through `x or ""`) are modelled with `Option`. -/
def bucket_issue (state_type state_name : Option String) : String :=
  let st := strLower (state_type.getD "")
  let name := strLower (state_name.getD "")
  if st == "completed" || name == "done" || name == "completed" then "done"
  else if strContains name "review" then "in_review"
  else if st == "started" || name == "in progress" || name == "in-progress" then "in_progress"
  else "other"

/-! ## Slug extraction -/

/-- One attempt of the regex `/project/([^/?#]+)` at the current position:
if the marker is an initial segment, capture the following maximal run of
characters outside `/?#` (the run must be nonempty). -/
def slugMatchAt (s : List Char) : Option (List Char) :=
  if startsWithChars s "/project/".data then
    let run := (s.drop 9).takeWhile (fun c => !(c == '/' || c == '?' || c == '#'))
    if run.isEmpty then none else some run
  else none

/-- Scan left to right for the first position where the regex matches,
as `re.search` does. -/
def slugSearch : List Char → Option (List Char)
  | [] => none
  | c :: cs =>
    match slugMatchAt (c :: cs) with
    | some run => some run
    | none => slugSearch cs

/-- Translation of `linear_slug_from_project_url(url)`: first match of
`/project/([^/?#]+)` inside `url or ""`. -/
def linear_slug_from_project_url (url : Option String) : Option String :=
  (slugSearch (url.getD "").data).map String.mk

/-! ## Data model

Work items, narrative updates and projects as the script reads them from
the Linear GraphQL responses.  Nullable JSON fields are `Option`s. -/

/-- A Linear work item as selected by `ISSUES_QUERY`. -/
structure Issue where
  identifier : String
  title : String
  url : String
  updatedAt : Option String
  stateType : Option String
  stateName : Option String
deriving DecidableEq

/-- A Linear project narrative update as selected by `PROJECT_QUERY`
(`projectUpdates(first: 1)`): body, creation timestamp, author name. -/
structure ProjectUpdate where
  body : String
  createdAt : String
  userName : String
deriving DecidableEq

/-- A Linear project as selected by `PROJECT_QUERY`. -/
structure Project where
  id : String
  name : Option String
  leadName : Option String
  state : Option String
  health : Option String
  updatedAt : Option String
  projectUpdates : List ProjectUpdate
deriving DecidableEq

/-! ## `top_titles` — stable descending sort by timestamp -/

/-- The sort key `x.get("updatedAt", "")` used by `top_titles`. -/
def issueKey (i : Issue) : String :=
  i.updatedAt.getD ""

/-- Insert `x` into an already descending-sorted list: walk past elements
with strictly greater key, so `x` lands before every element whose key is
less than or equal to its own.  Together with `sortByUpdatedDesc` this is
the stable descending sort performed by Python
`sorted(issues, key=lambda x: x.get("updatedAt", ""), reverse=True)`. -/
def insDesc (x : Issue) : List Issue → List Issue
  | [] => [x]
  | y :: ys => if issueKey x < issueKey y then y :: insDesc x ys else x :: y :: ys

/-- Stable sort of work items by `updatedAt` descending. -/
def sortByUpdatedDesc : List Issue → List Issue
  | [] => []
  | x :: xs => insDesc x (sortByUpdatedDesc xs)

/-- Translation of `top_titles(issues, n)`: sort by `updatedAt` descending
(stable), take the first `n`, and render each as `identifier: title`. -/
def top_titles (issues : List Issue) (n : Nat) : List String :=
  ((sortByUpdatedDesc issues).take n).map (fun i => i.identifier ++ ": " ++ i.title)

/-! ## Date arithmetic

`format_exec_update` computes `(dt.date.today() - created_date).days` where
`created_date = dt.date.fromisoformat(created_str[:10])`.  Dates are mapped
to day ordinals (days since 1970-01-01) so that the subtraction of two
`dt.date` values becomes an `Int` subtraction of ordinals. -/

/-- Day ordinal of a proleptic Gregorian civil date (days since
1970-01-01), the standard days-from-civil computation. -/
def daysFromCivil (y m d : Int) : Int :=
  let y2 := y - (if m ≤ 2 then 1 else 0)
  let era := Int.fdiv y2 400
  let yoe := y2 - era * 400
  let mp := Int.emod (m + 9) 12
  let doy := Int.fdiv (153 * mp + 2) 5 + d - 1
  let doe := yoe * 365 + Int.fdiv yoe 4 - Int.fdiv yoe 100 + doy
  era * 146097 + doe - 719468

/-- Decimal value of a digit character list. -/
def digitsToNat (cs : List Char) : Nat :=
  cs.foldl (fun a c => a * 10 + (c.toNat - 48)) 0

/-- Day ordinal of the date encoded in the first ten characters
`YYYY-MM-DD` of an ISO timestamp string: the embedding of
`dt.date.fromisoformat(created_str[:10])` followed by `.toordinal`-style
conversion.  Malformed date strings (on which Python would raise
`ValueError`) are parsed permissively and are outside every claim. -/
def ordinalOfCreatedAt (s : String) : Int :=
  let cs := s.data.take 10
  daysFromCivil (digitsToNat (cs.take 4)) (digitsToNat ((cs.drop 5).take 2))
    (digitsToNat ((cs.drop 8).take 2))

/-! ## `format_exec_update` — report construction -/

/-- The body cleanup of the source: truncate the narrative body to its
first 400 characters and flatten newlines to spaces. -/
def bodyClean (body : String) : String :=
  String.mk ((body.data.take 400).map (fun c => if c = '\n' then ' ' else c))

/-- The narrative line
`**Most recent update** ({days_ago}d ago, {user}): {body_clean}`. -/
def narrLine (days : Int) (u : ProjectUpdate) : String :=
  "**Most recent update** (" ++ toString days ++ "d ago, " ++ u.userName ++ "): "
    ++ bodyClean u.body

/-- The `recent` value of `format_exec_update`: the narrative line of the
most recent project update, but only when
`days_ago = today - created_date` is at most 7; `today` is passed as a day
ordinal. -/
def recentNarrative (today : Int) (p : Project) : Option String :=
  match p.projectUpdates with
  | [] => none
  | u :: _ =>
    let days := today - ordinalOfCreatedAt u.createdAt
    if days ≤ 7 then some (narrLine days u) else none

/-- Work items classified `done` (input order preserved, as the single
classification pass in the source preserves it). -/
def doneIssues (issues : List Issue) : List Issue :=
  issues.filter (fun it => bucket_issue it.stateType it.stateName == "done")

/-- Work items classified `in_review`. -/
def inReviewIssues (issues : List Issue) : List Issue :=
  issues.filter (fun it => bucket_issue it.stateType it.stateName == "in_review")

/-- Work items classified `in_progress`. -/
def inProgressIssues (issues : List Issue) : List Issue :=
  issues.filter (fun it => bucket_issue it.stateType it.stateName == "in_progress")

/-- The `**Completed/In Review** ...` line. -/
def completedLine (done inReview : List Issue) : String :=
  "**Completed/In Review** (" ++ toString done.length ++ " done, "
    ++ toString inReview.length ++ " in review): "
    ++ String.intercalate "; " (top_titles (done ++ inReview) 5)

/-- The `**In Progress** ...` line. -/
def progressLine (inProgress : List Issue) : String :=
  "**In Progress** (" ++ toString inProgress.length ++ "): "
    ++ String.intercalate "; " (top_titles inProgress 5)

/-- The `**Status:** ...` line, defaulting missing state or health to
`unknown`. -/
def statusLine (p : Project) : String :=
  "**Status:** " ++ p.state.getD "unknown" ++ ", health: " ++ p.health.getD "unknown"

/-- The `lines` list assembled by `format_exec_update`, in source order:
optional narrative line, optional completed/in-review line, optional
in-progress line, and the always-present status line. -/
def formatLines (today : Int) (p : Project) (issues : List Issue) : List String :=
  (recentNarrative today p).toList
    ++ (if (doneIssues issues).isEmpty && (inReviewIssues issues).isEmpty then []
        else [completedLine (doneIssues issues) (inReviewIssues issues)])
    ++ (if (inProgressIssues issues).isEmpty then []
        else [progressLine (inProgressIssues issues)])
    ++ [statusLine p]

/-- Translation of `format_exec_update(project, issues)`; the ambient
`dt.date.today()` is the explicit day-ordinal parameter `today`. -/
def format_exec_update (today : Int) (p : Project) (issues : List Issue) : String :=
  String.intercalate "\n" (formatLines today p issues)

/-- Recognizer for the narrative line: does the line start with the fixed
marker `**Most recent update**`?  No other report line starts with it. -/
def isNarrLine (l : String) : Bool :=
  startsWithChars l.data "**Most recent update**".data

/-! ## Notion row query — `notion_db_query`

The loop posts the query repeatedly; the i-th response of the service is
`server i`.  Python `j.get("has_more")` yields `None` when the key is
absent, and the loop continues only on a truthy value, so the flag is an
`Option Bool`.  The loop state `(cursor, acc)` mirrors `next_cursor` and
`results`; `fuel` bounds the number of iterations we observe, so that
non-termination of the `while True` loop is expressible as `none` for
every fuel. -/

/-- One tracking row from the Notion OKR database, with the properties
`main` reads: page id, the `Objective` title fragments, and the nullable
`Linear project URL`. -/
structure OkrRow where
  pageId : String
  objectiveTitle : List String
  linearUrl : Option String
deriving DecidableEq

/-- One response of the Notion database query endpoint. -/
structure NotionQueryResp where
  results : List OkrRow
  hasMore : Option Bool
  nextCursor : Option String

/-- Python truthiness of `j.get("has_more")`: only `True` continues the
loop; `False` and an absent key both end it. -/
def truthyFlag : Option Bool → Bool
  | some true => true
  | _ => false

/-- The `notion_db_query` pagination loop, observed for `fuel` iterations:
extend `acc` with the page results, stop when `has_more` is falsy,
otherwise continue with `next_cursor` (which may be absent — the next
request then carries no cursor, exactly as in the source). -/
def notion_db_query_fuel (server : Nat → NotionQueryResp) :
    Nat → Nat → Option String → List OkrRow → Option (List OkrRow)
  | 0, _, _, _ => none
  | fuel + 1, i, _cursor, acc =>
    let j := server i
    let acc2 := acc ++ j.results
    if truthyFlag j.hasMore then notion_db_query_fuel server fuel (i + 1) j.nextCursor acc2
    else some acc2

/-! ## Notion writes — `notion_update_page_property` and
`notion_append_weekly_log_blocks` -/

/-- Translation of `notion_update_page_property(page_id, latest_update)`
as a state transformer on the `Latest update` field: the new field value
is `latest_update[:2000]`, regardless of the old value `field`. -/
def notion_update_page_property (latest_update : String) (_field : String) : String :=
  strTrunc 2000 latest_update

/-- A top-level Notion block as far as the script inspects it: a level-3
heading carrying rich-text fragments, a bulleted list item with a title
and child lines, or any other block. -/
inductive NotionBlock where
  | heading3 (richTexts : List String)
  | bullet (title : String) (children : List String)
  | other (id : String)
deriving DecidableEq

/-- The heading test of the source: a `heading_3` block whose joined
plain text, stripped, equals `HEADER`. -/
def isLogHeading : NotionBlock → Bool
  | NotionBlock.heading3 rts => pyStrip (String.join rts) == HEADER
  | _ => false

/-- The child lines of a new log entry:
`[line.strip() for line in exec_update.splitlines() if line.strip()]`,
capped at 20 entries, each truncated to 2000 characters. -/
def logEntryChildren (exec_update : String) : List String :=
  ((((splitlines exec_update).map pyStrip).filter (fun l => !(l == ""))).take 20).map
    (strTrunc 2000)

/-- Insert `entry` directly after the first block satisfying
`isLogHeading`; `none` when no block matches.  This is the
find-heading-then-append-with-`after` step of the source. -/
def insertEntry (entry : NotionBlock) : List NotionBlock → Option (List NotionBlock)
  | [] => none
  | b :: bs =>
    if isLogHeading b then some (b :: entry :: bs)
    else (insertEntry entry bs).map (fun r => b :: r)

/-- Translation of
`notion_append_weekly_log_blocks(page_id, exec_update, project_name)` as a
transformer of the page block list: build the entry titled
`{today} — {project_name}` with the derived child lines and insert it
after the log heading.  The initial heading search paginates over every
top-level block; when no heading exists, one is created at the end of the
page, but the refresh that looks its id up again issues a single request
for the first 100 top-level blocks without paginating, so on a page with
at least 100 top-level blocks the newly created heading is not seen and
the operation fails (the RuntimeError of the source, `Except.error`
here).  `today` is the ambient `dt.date.today().isoformat()` string. -/
def notion_append_weekly_log_blocks (today project_name exec_update : String)
    (blocks : List NotionBlock) : Except String (List NotionBlock) :=
  let entry := NotionBlock.bullet (today ++ " — " ++ project_name)
    (logEntryChildren exec_update)
  match insertEntry entry blocks with
  | some r => Except.ok r
  | none =>
    let blocks2 := blocks ++ [NotionBlock.heading3 [HEADER]]
    if (blocks2.take 100).any isLogHeading then
      match insertEntry entry blocks2 with
      | some r => Except.ok r
      | none => Except.error "Could not create/find Weekly Linear update log heading"
    else Except.error "Could not create/find Weekly Linear update log heading"

/-- Number of bulleted log entries with the given exact title. -/
def countTitled (t : String) (bs : List NotionBlock) : Nat :=
  bs.countP (fun b =>
    match b with
    | NotionBlock.bullet t2 _ => t2 == t
    | _ => false)

/-! ## Linear fetch — `fetch_project_and_issues` and the `main` loop -/

/-- One page of the Linear `issues` query: the `nodes` chunk and the
`pageInfo` fields. -/
structure IssuePage where
  nodes : List Issue
  hasNextPage : Bool
  endCursor : Option String
deriving DecidableEq

/-- The issue pagination loop of `fetch_project_and_issues`, over the
successive pages the service returns: extend with the chunk, stop when
`hasNextPage` is false, otherwise keep fetching unless the accumulated
count already exceeds 2000 (the safety cap, tested after extending). -/
def issuesLoop : List IssuePage → List Issue → List Issue
  | [], acc => acc
  | pg :: rest, acc =>
    let acc2 := acc ++ pg.nodes
    if !pg.hasNextPage then acc2
    else if acc2.length > 2000 then acc2
    else issuesLoop rest acc2

/-- The two external services as `main` consults them: projects by slug
(the GraphQL `projects(filter: slugId eq ...)` node list), issue pages by
project id, and the ambient current date as a day ordinal. -/
structure LinearEnv where
  projectsBySlug : String → List Project
  issuePages : String → List IssuePage
  todayOrd : Int

/-- Translation of `fetch_project_and_issues(project_slug)`: raise
(`Except.error`) when no project matches the slug, otherwise take the
first node and paginate its issues. -/
def fetch_project_and_issues (env : LinearEnv) (project_slug : String) :
    Except String (Project × List Issue) :=
  match env.projectsBySlug project_slug with
  | [] => Except.error ("No Linear project found for slug: " ++ project_slug)
  | p :: _ => Except.ok (p, issuesLoop (env.issuePages p.id) [])

/-- The per-row loop of `main`, recorded as the list of
`(page_id, exec_update)` overwrite effects performed, paired with the
error that aborted the loop (if any).  A row whose URL yields no slug is
skipped with `continue`; an exception from `fetch_project_and_issues`
propagates out of `main`, so no later row is processed. -/
def processRows (env : LinearEnv) : List OkrRow → List (String × String) × Option String
  | [] => ([], none)
  | r :: rs =>
    match linear_slug_from_project_url r.linearUrl with
    | none => processRows env rs
    | some slug =>
      match fetch_project_and_issues env slug with
      | Except.error e => ([], some e)
      | Except.ok (project, issues) =>
        let eu := format_exec_update env.todayOrd project issues
        let rest := processRows env rs
        ((r.pageId, eu) :: rest.1, rest.2)

/-! ## Concrete fixtures used by witnesses and counterexamples -/

/-- A placeholder work item for pagination fixtures. -/
def dummyIssue : Issue :=
  { identifier := "ENG-1", title := "t", url := "u", updatedAt := some "2026-01-01",
    stateType := some "started", stateName := some "In Progress" }

/-- A full 250-item issue page announcing a next page. -/
def fullPage : IssuePage :=
  { nodes := List.replicate 250 dummyIssue, hasNextPage := true, endCursor := some "cur" }

/-- Nine full 250-item pages all announcing a next page: the cap test
`len(issues) > 2000` first fires after the ninth chunk has been added. -/
def ninePages : List IssuePage :=
  List.replicate 9 fullPage

/-- A Notion row whose URL carries the slug `missing-slug`. -/
def rowBad : OkrRow :=
  { pageId := "page-bad", objectiveTitle := ["Bad objective"],
    linearUrl := some "https://linear.app/acme/project/missing-slug" }

/-- A Notion row whose URL carries the slug `good-slug`. -/
def rowGood : OkrRow :=
  { pageId := "page-good", objectiveTitle := ["Good objective"],
    linearUrl := some "https://linear.app/acme/project/good-slug" }

/-- A resolvable project for `rowGood`. -/
def goodProject : Project :=
  { id := "proj-1", name := some "Good", leadName := none, state := some "started",
    health := some "onTrack", updatedAt := none, projectUpdates := [] }

/-- An environment in which `missing-slug` resolves to zero projects and
`good-slug` resolves to `goodProject` with no issues. -/
def envNotFound : LinearEnv :=
  { projectsBySlug := fun s => if s == "good-slug" then [goodProject] else [],
    issuePages := fun _ => [], todayOrd := 0 }

/-- A Notion query response stream that always answers
`has_more: true` with no `next_cursor` — the malformed pagination
signal. -/
def malformedNotionServer : Nat → NotionQueryResp :=
  fun _ => { results := [], hasMore := some true, nextCursor := none }

/-- A Notion query response stream whose first response omits `has_more`
entirely. -/
def singlePageNotionServer : Nat → NotionQueryResp :=
  fun _ => { results := [rowGood], hasMore := none, nextCursor := none }

/-- A project whose only narrative update was created on 2026-02-20. -/
def projUpd20 : ProjectUpdate :=
  { body := "Shipped the auth flow", createdAt := "2026-02-20T12:00:00.000Z",
    userName := "Alice" }

/-- Project fixture carrying `projUpd20`. -/
def projWithUpd20 : Project :=
  { id := "p1", name := some "Auth", leadName := some "Bob", state := some "started",
    health := some "onTrack", updatedAt := none, projectUpdates := [projUpd20] }

/-- Day ordinal of 2026-02-27, seven days after the fixture update. -/
def today27 : Int := daysFromCivil 2026 2 27

/-- Day ordinal of 2026-02-28, eight days after the fixture update. -/
def today28 : Int := daysFromCivil 2026 2 28

/-- Day ordinal of 2026-02-17, three days before the fixture update. -/
def today17 : Int := daysFromCivil 2026 2 17

/-- The zero-work-item project of the end-to-end scenario: state
`in_progress`, health `on_track`, no narrative update. -/
def projC6 : Project :=
  { id := "p6", name := some "Auth flows", leadName := none, state := some "in_progress",
    health := some "on_track", updatedAt := none, projectUpdates := [] }

end SyncOkrs

namespace SyncOkrs

/-! ## Sanity checks on concrete inputs -/

example : bucket_issue (some "completed") (some "in review") = "done" := by decide

example : bucket_issue (some "backlog") (some "In Review") = "in_review" := by decide

example : bucket_issue none (some "In-Progress") = "in_progress" := by decide

example : bucket_issue none none = "other" := by decide

example : linear_slug_from_project_url (some "https://tracker.example/project/auth-flows-9cb6") =
    some "auth-flows-9cb6" := by decide

example : linear_slug_from_project_url (some "https://x/project//project/abc?x=1") =
    some "abc" := by decide

example : linear_slug_from_project_url (some "https://x/nope") = none := by decide

example : splitlines "a\nb\n" = ["a", "b"] := by decide

example : splitlines "" = [] := by decide

example : splitlines "\n" = [""] := by decide

example : pyStrip "  hello  " = "hello" := by decide

example : daysFromCivil 1970 1 1 = 0 := by decide

example : daysFromCivil 2026 2 27 - daysFromCivil 2026 2 20 = 7 := by decide

example : ordinalOfCreatedAt "2026-02-20T12:34:56.000Z" = daysFromCivil 2026 2 20 := by decide

example :
    format_exec_update 0
      { id := "p", name := some "P", leadName := none, state := some "in_progress",
        health := some "on_track", updatedAt := none, projectUpdates := [] } [] =
      "**Status:** in_progress, health: on_track" := by decide

example (d : Int) (u : ProjectUpdate) : isNarrLine (narrLine d u) = true := by
  simp only [isNarrLine, narrLine, String.data_append]
  rfl

example (a b : List Issue) : isNarrLine (completedLine a b) = false := by
  simp only [isNarrLine, completedLine, String.data_append]
  rfl

example (a : List Issue) : isNarrLine (progressLine a) = false := by
  simp only [isNarrLine, progressLine, String.data_append]
  rfl

example (p : Project) : isNarrLine (statusLine p) = false := by
  simp only [isNarrLine, statusLine, String.data_append]
  rfl

set_option maxRecDepth 20000 in
example : (issuesLoop ninePages []).length = 2250 := by decide

example : processRows envNotFound [rowBad, rowGood] =
    ([], some "No Linear project found for slug: missing-slug") := by rfl

example : notion_append_weekly_log_blocks "2026-10-12" "Proj" "  hello  "
    [NotionBlock.heading3 [HEADER]] =
    Except.ok [NotionBlock.heading3 [HEADER],
      NotionBlock.bullet "2026-10-12 — Proj" ["hello"]] := by rfl

example : notion_db_query_fuel singlePageNotionServer 1 0 none [] = some [rowGood] := by rfl

example : (formatLines today27 projWithUpd20 []).any isNarrLine = true := by decide

example : (formatLines today28 projWithUpd20 []).any isNarrLine = false := by decide

example : (formatLines today17 projWithUpd20 []).head? =
    some ("**Most recent update** (-3d ago, Alice): Shipped the auth flow") := by decide

/-! ## Helper lemmas about report lines -/

/-- The narrative line starts with the narrative marker. -/
theorem isNarrLine_narrLine (d : Int) (u : ProjectUpdate) : isNarrLine (narrLine d u) = true := by
  simp only [isNarrLine, narrLine, String.data_append]
  rfl

/-- The completed/in-review line does not start with the narrative marker. -/
theorem isNarrLine_completedLine (a b : List Issue) : isNarrLine (completedLine a b) = false := by
  simp only [isNarrLine, completedLine, String.data_append]
  rfl

/-- The in-progress line does not start with the narrative marker. -/
theorem isNarrLine_progressLine (a : List Issue) : isNarrLine (progressLine a) = false := by
  simp only [isNarrLine, progressLine, String.data_append]
  rfl

/-- The status line does not start with the narrative marker. -/
theorem isNarrLine_statusLine (p : Project) : isNarrLine (statusLine p) = false := by
  simp only [isNarrLine, statusLine, String.data_append]
  rfl

/-- No line of the report after the optional narrative line matches the
narrative marker. -/
theorem any_isNarrLine_tail (issues : List Issue) (p : Project) :
    ((if (doneIssues issues).isEmpty && (inReviewIssues issues).isEmpty then []
      else [completedLine (doneIssues issues) (inReviewIssues issues)])
      ++ (if (inProgressIssues issues).isEmpty then []
      else [progressLine (inProgressIssues issues)])
      ++ [statusLine p]).any isNarrLine = false := by
  split <;> split <;>
    simp [isNarrLine_completedLine, isNarrLine_progressLine, isNarrLine_statusLine]

/-- A nonempty update list seen through `head?`. -/
theorem projectUpdates_eq_cons {p : Project} {u : ProjectUpdate}
    (h : p.projectUpdates.head? = some u) :
    ∃ us, p.projectUpdates = u :: us := by
  cases hp : p.projectUpdates with
  | nil => rw [hp] at h; exact absurd h (by simp)
  | cons a as =>
    rw [hp] at h
    simp only [List.head?_cons, Option.some.injEq] at h
    subst h
    exact ⟨as, rfl⟩

/-- The report contains a narrative line exactly when the head update is
at most seven days old. -/
theorem formatLines_any_isNarr_iff (today : Int) (p : Project) (issues : List Issue)
    (u : ProjectUpdate) (h : p.projectUpdates.head? = some u) :
    (formatLines today p issues).any isNarrLine = true ↔
      today - ordinalOfCreatedAt u.createdAt ≤ 7 := by
  obtain ⟨us, hus⟩ := projectUpdates_eq_cons h
  have htail := any_isNarrLine_tail issues p
  unfold formatLines recentNarrative
  rw [hus]
  by_cases hd : today - ordinalOfCreatedAt u.createdAt ≤ 7
  · simp [hd, isNarrLine_narrLine]
  · simp only [hd, if_false, Option.toList_none, List.nil_append]
    rw [htail]
    simp [hd]

/-! ## Claim theorems -/

/-- C1: for every status type-code and label pair (absent values included),
`bucket_issue` returns exactly one of `done`, `in_review`, `in_progress`,
`other`, with the checks applied in the precedence: done (type-code
`completed` or label `done`/`completed`), then in-review (label contains
`review`), then in-progress (type-code `started` or label
`in progress`/`in-progress`), else other; in particular type-code
`completed` with label `in review` yields `done`. -/
theorem claim_C1_bucket_total_and_precedence (t n : Option String) :
    (bucket_issue t n = "done" ∨ bucket_issue t n = "in_review" ∨
      bucket_issue t n = "in_progress" ∨ bucket_issue t n = "other") ∧
    bucket_issue t n =
      (if strLower (t.getD "") = "completed" ∨ strLower (n.getD "") = "done" ∨
          strLower (n.getD "") = "completed" then "done"
       else if strContains (strLower (n.getD "")) "review" = true then "in_review"
       else if strLower (t.getD "") = "started" ∨ strLower (n.getD "") = "in progress" ∨
          strLower (n.getD "") = "in-progress" then "in_progress"
       else "other") ∧
    bucket_issue (some "completed") (some "in review") = "done" := by
  refine ⟨?_, ?_, by decide⟩
  · simp only [bucket_issue]
    split
    · exact Or.inl rfl
    · split
      · exact Or.inr (Or.inl rfl)
      · split
        · exact Or.inr (Or.inr (Or.inl rfl))
        · exact Or.inr (Or.inr (Or.inr rfl))
  · simp only [bucket_issue, Bool.or_eq_true, beq_iff_eq, or_assoc]

/-- C8: overwriting the `Latest update` field stores the report text
truncated to 2000 characters, independently of the previous field value,
so a second call with the same text leaves the field exactly as one call
does. -/
theorem claim_C8_overwrite_idempotent (field text : String) :
    notion_update_page_property text (notion_update_page_property text field) =
      notion_update_page_property text field ∧
    notion_update_page_property text field = strTrunc 2000 text :=
  ⟨rfl, rfl⟩

/-- C4: when a most recent narrative update exists, the report contains
the narrative line exactly when `today` minus the update creation date
(date component only) is at most 7 days; concretely, an update created on
2026-02-20 is included when today is 2026-02-27 (7 days) and omitted when
today is 2026-02-28 (8 days). -/
theorem claim_C4_narrative_freshness_gate (today : Int) (p : Project) (issues : List Issue)
    (u : ProjectUpdate) (h : p.projectUpdates.head? = some u) :
    ((formatLines today p issues).any isNarrLine = true ↔
      today - ordinalOfCreatedAt u.createdAt ≤ 7) ∧
    today27 - ordinalOfCreatedAt projUpd20.createdAt = 7 ∧
    (formatLines today27 projWithUpd20 []).any isNarrLine = true ∧
    today28 - ordinalOfCreatedAt projUpd20.createdAt = 8 ∧
    (formatLines today28 projWithUpd20 []).any isNarrLine = false :=
  ⟨formatLines_any_isNarr_iff today p issues u h, by decide, by decide, by decide, by decide⟩

/-- C10: the freshness gate has no lower bound — an update whose creation
date lies after `today` (negative elapsed days) is still included, as the
first report line, and the negative day count is rendered into the
`{days}d ago` prefix (concretely `-3d ago`). -/
theorem claim_C10_negative_days_included (today : Int) (p : Project) (issues : List Issue)
    (u : ProjectUpdate) (h : p.projectUpdates.head? = some u)
    (hneg : today - ordinalOfCreatedAt u.createdAt < 0) :
    (formatLines today p issues).any isNarrLine = true ∧
    (formatLines today p issues).head? =
      some (narrLine (today - ordinalOfCreatedAt u.createdAt) u) ∧
    (formatLines today17 projWithUpd20 []).head? =
      some "**Most recent update** (-3d ago, Alice): Shipped the auth flow" := by
  obtain ⟨us, hus⟩ := projectUpdates_eq_cons h
  have hle : today - ordinalOfCreatedAt u.createdAt ≤ 7 := le_of_lt (lt_of_lt_of_le hneg (by norm_num))
  refine ⟨?_, ?_, by decide⟩
  · exact (formatLines_any_isNarr_iff today p issues u h).mpr hle
  · unfold formatLines recentNarrative
    rw [hus]
    simp [hle]

/-- C10 witness: update created three days after today (2026-02-17 vs
creation 2026-02-20). -/
theorem claim_C10_witness :
    projWithUpd20.projectUpdates.head? = some projUpd20 ∧
    today17 - ordinalOfCreatedAt projUpd20.createdAt < 0 ∧
    (formatLines today17 projWithUpd20 []).any isNarrLine = true :=
  ⟨rfl, by decide,
    (claim_C10_negative_days_included today17 projWithUpd20 [] projUpd20 rfl (by decide)).1⟩

/-- C4 witness: at the 7-day boundary the narrative line is present. -/
theorem claim_C4_witness :
    projWithUpd20.projectUpdates.head? = some projUpd20 ∧
    ((formatLines today27 projWithUpd20 []).any isNarrLine = true ↔
      today27 - ordinalOfCreatedAt projUpd20.createdAt ≤ 7) :=
  ⟨rfl, (claim_C4_narrative_freshness_gate today27 projWithUpd20 [] projUpd20 rfl).1⟩

/-- C6 counterexample: for the end-to-end scenario project the report is
the line `**Status:** in_progress, health: on_track` (with the literal
bold markers of the source f-string), not the claimed bare
`Status: in_progress, health: on_track`. -/
theorem claim_C6_counterexample :
    format_exec_update 0 projC6 [] ≠ "Status: in_progress, health: on_track" := by
  decide

/-- C6 (amended): a report for a project with zero work items consists of
the optional narrative line followed by the status line only; for the
end-to-end scenario row the URL yields slug `auth-flows-9cb6` and the
report is the single line `**Status:** in_progress, health: on_track`. -/
theorem claim_C6_zero_item_report (today : Int) (p : Project) :
    formatLines today p [] = (recentNarrative today p).toList ++ [statusLine p] ∧
    format_exec_update 0 projC6 [] = "**Status:** in_progress, health: on_track" ∧
    linear_slug_from_project_url (some "https://tracker.example/project/auth-flows-9cb6") =
      some "auth-flows-9cb6" := by
  refine ⟨?_, by decide, by decide⟩
  unfold formatLines
  simp [doneIssues, inReviewIssues, inProgressIssues]

/-- The issue pagination loop keeps at most `2000 + 250` items when every
page holds at most 250 work items (the page size the query requests):
the cap test runs only after a chunk has been appended. -/
theorem issuesLoop_length_le (pages : List IssuePage) :
    ∀ acc : List Issue, (∀ pg ∈ pages, pg.nodes.length ≤ 250) →
      acc.length ≤ 2000 → (issuesLoop pages acc).length ≤ 2250 := by
  induction pages with
  | nil => intro acc _ hacc; exact le_trans hacc (by norm_num)
  | cons pg rest ih =>
    intro acc hpages hacc
    have hpg : pg.nodes.length ≤ 250 := hpages pg (List.mem_cons_self pg rest)
    have hrest : ∀ q ∈ rest, q.nodes.length ≤ 250 :=
      fun q hq => hpages q (List.mem_cons_of_mem pg hq)
    have hlen : (acc ++ pg.nodes).length ≤ 2250 := by
      rw [List.length_append]; omega
    unfold issuesLoop
    by_cases hnext : pg.hasNextPage
    · simp only [hnext, Bool.not_true, Bool.false_eq_true, if_false]
      by_cases hcap : (acc ++ pg.nodes).length > 2000
      · simp only [hcap, if_true]
        exact hlen
      · simp only [hcap, if_false]
        exact ih (acc ++ pg.nodes) hrest (by omega)
    · simp only [Bool.not_eq_true] at hnext
      simp only [hnext, Bool.not_false, if_true]
      exact hlen

set_option maxRecDepth 40000 in
/-- C3 counterexample: nine successive full 250-item pages, each
announcing a further page, leave 2250 accumulated work items — more than
the claimed 2000-item bound — because the cap is tested only after a
whole chunk has been appended. -/
theorem claim_C3_counterexample : ¬ (issuesLoop ninePages []).length ≤ 2000 := by
  decide

/-- C3 (amended): the pagination loop stops requesting further pages once
the accumulated count exceeds 2000, truncating silently (it always
returns a list instead of failing), so with the 250-item pages the query
requests the result never exceeds 2000 + 250 = 2250 items; the
2000-item figure itself is not a bound on the returned list. -/
theorem claim_C3_cap_truncates_at_page_granularity (pages : List IssuePage)
    (h : ∀ pg ∈ pages, pg.nodes.length ≤ 250) :
    (issuesLoop pages []).length ≤ 2250 :=
  issuesLoop_length_le pages [] h (by simp)

/-- C3 witness: a single terminal page. -/
theorem claim_C3_witness :
    (∀ pg ∈ [({ nodes := [dummyIssue], hasNextPage := false, endCursor := none } : IssuePage)],
      pg.nodes.length ≤ 250) ∧
    (issuesLoop [{ nodes := [dummyIssue], hasNextPage := false, endCursor := none }] []).length
      ≤ 2250 :=
  ⟨by decide,
    claim_C3_cap_truncates_at_page_granularity
      [{ nodes := [dummyIssue], hasNextPage := false, endCursor := none }] (by decide)⟩

/-- C2 counterexample: in a two-row batch where the slug of the first row resolves
to zero Linear projects, the lookup error aborts the whole run — the
second row is never processed (no overwrite effect is recorded for it). -/
theorem claim_C2_counterexample :
    processRows envNotFound [rowBad, rowGood] =
      ([], some "No Linear project found for slug: missing-slug") ∧
    ¬ ∃ eu, (rowGood.pageId, eu) ∈ (processRows envNotFound [rowBad, rowGood]).1 := by
  have h1 : (processRows envNotFound [rowBad, rowGood]).1 = [] := by rfl
  refine ⟨by rfl, ?_⟩
  rintro ⟨eu, hmem⟩
  rw [h1] at hmem
  exact absurd hmem (List.not_mem_nil _)

/-- C2 (amended): the per-row loop skips only rows whose URL yields no
slug; a NotFound error from the project lookup propagates out of the
loop, aborting the batch with no effect recorded for any row — later rows
are not processed. -/
theorem claim_C2_notfound_aborts_batch (env : LinearEnv) (r : OkrRow) (rs : List OkrRow)
    (slug : String) (h1 : linear_slug_from_project_url r.linearUrl = some slug)
    (h2 : env.projectsBySlug slug = []) :
    processRows env (r :: rs) = ([], some ("No Linear project found for slug: " ++ slug)) := by
  simp only [processRows, fetch_project_and_issues, h1, h2]

/-- C2 witness: the two-row batch with a dangling first slug. -/
theorem claim_C2_witness :
    linear_slug_from_project_url rowBad.linearUrl = some "missing-slug" ∧
    envNotFound.projectsBySlug "missing-slug" = [] ∧
    processRows envNotFound [rowBad, rowGood] =
      ([], some ("No Linear project found for slug: " ++ "missing-slug")) :=
  ⟨by decide, by decide,
    claim_C2_notfound_aborts_batch envNotFound rowBad [rowGood] "missing-slug"
      (by decide) (by decide)⟩

/-- C9 counterexample: a document source that always answers
`has_more: true` without a `next_cursor` (the malformed signal named by
the claim) makes the row-listing loop run forever — no amount of
iterations reaches a result. -/
theorem claim_C9_counterexample :
    ¬ ∃ fuel, (notion_db_query_fuel malformedNotionServer fuel 0 none []).isSome = true := by
  have key : ∀ fuel i c acc, notion_db_query_fuel malformedNotionServer fuel i c acc = none := by
    intro fuel
    induction fuel with
    | zero => intro i c acc; rfl
    | succ m ih =>
      intro i c acc
      simp only [notion_db_query_fuel, malformedNotionServer, truthyFlag, if_true]
      exact ih (i + 1) none (acc ++ [])
  rintro ⟨fuel, hsome⟩
  rw [key fuel 0 none []] at hsome
  exact absurd hsome (by simp)

/-- C9 (amended): the row-listing loop stops as soon as a response
carries a falsy `has_more` (an absent flag counts as end-of-stream, as
`truthyFlag none = false` records); but when every response says more
pages exist, a missing `next_cursor` does not stop it — the loop re-posts
the query without a cursor and never terminates. -/
theorem claim_C9_terminates_on_falsy_flag (server : Nat → NotionQueryResp) (k i : Nat)
    (c : Option String) (acc : List OkrRow)
    (h : truthyFlag (server (i + k)).hasMore = false) :
    (notion_db_query_fuel server (k + 1) i c acc).isSome = true ∧
    truthyFlag none = false := by
  refine ⟨?_, rfl⟩
  induction k generalizing i c acc with
  | zero =>
    rw [Nat.add_zero] at h
    simp [notion_db_query_fuel, h]
  | succ m ih =>
    by_cases t : truthyFlag (server i).hasMore
    · have h2 : truthyFlag (server (i + 1 + m)).hasMore = false := by
        rw [show i + 1 + m = i + (m + 1) by omega]
        exact h
      simp only [notion_db_query_fuel, t, if_true]
      exact ih (i + 1) (server i).nextCursor (acc ++ (server i).results) h2
    · simp only [Bool.not_eq_true] at t
      simp [notion_db_query_fuel, t]

/-- C9 witness: a response stream whose first answer omits `has_more`. -/
theorem claim_C9_witness :
    truthyFlag (singlePageNotionServer (0 + 0)).hasMore = false ∧
    (notion_db_query_fuel singlePageNotionServer (0 + 1) 0 none []).isSome = true :=
  ⟨by decide, (claim_C9_terminates_on_falsy_flag singlePageNotionServer 0 0 none [] (by decide)).1⟩

/-! ## Helper lemmas for the stable descending sort -/

/-- Membership through the descending insertion. -/
theorem mem_insDesc {a x : Issue} {l : List Issue} : a ∈ insDesc x l ↔ a = x ∨ a ∈ l := by
  induction l with
  | nil => simp [insDesc]
  | cons y ys ih =>
    unfold insDesc
    by_cases hc : issueKey x < issueKey y
    · simp only [hc, if_true, List.mem_cons, ih]
      tauto
    · simp only [hc, if_false, List.mem_cons]

/-- Inserting into a descending-sorted list keeps it descending. -/
theorem pairwise_insDesc {x : Issue} {l : List Issue}
    (h : l.Pairwise (fun a b => issueKey b ≤ issueKey a)) :
    (insDesc x l).Pairwise (fun a b => issueKey b ≤ issueKey a) := by
  induction l with
  | nil => simp [insDesc]
  | cons y ys ih =>
    rw [List.pairwise_cons] at h
    obtain ⟨hy, hys⟩ := h
    unfold insDesc
    by_cases hc : issueKey x < issueKey y
    · simp only [hc, if_true, List.pairwise_cons]
      refine ⟨?_, ih hys⟩
      intro z hz
      rcases mem_insDesc.1 hz with hzx | hzy
      · rw [hzx]; exact le_of_lt hc
      · exact hy z hzy
    · have hxy : issueKey y ≤ issueKey x := le_of_not_lt hc
      simp only [hc, if_false, List.pairwise_cons]
      refine ⟨?_, ?_, hys⟩
      · intro z hz
        rcases List.mem_cons.1 hz with hzy | hzys
        · rw [hzy]; exact hxy
        · exact le_trans (hy z hzys) hxy
      · exact hy

/-- The sort used by `top_titles` is descending in the `updatedAt` key:
no two items with distinct, correctly ordered timestamps are ever
swapped. -/
theorem sortByUpdatedDesc_pairwise (l : List Issue) :
    (sortByUpdatedDesc l).Pairwise (fun a b => issueKey b ≤ issueKey a) := by
  induction l with
  | nil => simp [sortByUpdatedDesc]
  | cons x xs ih => exact pairwise_insDesc ih

/-- The insertion places `x` after an initial segment of elements with
strictly greater key. -/
theorem insDesc_decomp (x : Issue) (l : List Issue) :
    ∃ l1 l2, l = l1 ++ l2 ∧ insDesc x l = l1 ++ x :: l2 ∧
      ∀ y ∈ l1, issueKey x < issueKey y := by
  induction l with
  | nil => exact ⟨[], [], rfl, rfl, by simp⟩
  | cons y ys ih =>
    by_cases hc : issueKey x < issueKey y
    · obtain ⟨l1, l2, hsplit, hins, hgt⟩ := ih
      refine ⟨y :: l1, l2, by rw [List.cons_append, hsplit], ?_, ?_⟩
      · unfold insDesc
        simp only [hc, if_true, List.cons_append]
        rw [hins]
      · intro z hz
        rcases List.mem_cons.1 hz with hzy | hzl1
        · rw [hzy]; exact hc
        · exact hgt z hzl1
    · refine ⟨[], y :: ys, rfl, ?_, by simp⟩
      unfold insDesc
      simp [hc]

/-- The sort is a permutation of its input. -/
theorem sortByUpdatedDesc_perm (l : List Issue) : List.Perm (sortByUpdatedDesc l) l := by
  induction l with
  | nil => simp [sortByUpdatedDesc]
  | cons x xs ih =>
    obtain ⟨l1, l2, hsplit, hins, _⟩ := insDesc_decomp x (sortByUpdatedDesc xs)
    show List.Perm (insDesc x (sortByUpdatedDesc xs)) (x :: xs)
    rw [hins]
    have h1 : List.Perm (l1 ++ x :: l2) (x :: (l1 ++ l2)) := List.perm_middle
    rw [← hsplit] at h1
    exact h1.trans (List.Perm.cons x ih)

/-- Filtering on an exact key value commutes with the insertion: items of
equal key keep their relative order. -/
theorem filter_insDesc (x : Issue) (l : List Issue) (t : String) :
    (insDesc x l).filter (fun i => issueKey i == t) =
      (if issueKey x == t then x :: l.filter (fun i => issueKey i == t)
       else l.filter (fun i => issueKey i == t)) := by
  obtain ⟨l1, l2, hsplit, hins, hgt⟩ := insDesc_decomp x l
  rw [hins, hsplit]
  by_cases hx : issueKey x == t
  · have hl1 : ∀ y ∈ l1, (issueKey y == t) = false := by
      intro y hy
      have hlt : issueKey x < issueKey y := hgt y hy
      have hne : issueKey y ≠ t := by
        intro hyt
        rw [beq_iff_eq] at hx
        rw [hyt, ← hx] at hlt
        exact lt_irrefl _ hlt
      simp [hne]
    have hfl1 : l1.filter (fun i => issueKey i == t) = [] := by
      rw [List.filter_eq_nil_iff]
      intro y hy
      rw [hl1 y hy]
      simp
    simp only [hx, if_true, List.filter_append, hfl1, List.nil_append, List.filter_cons, hx]
  · have hxf : (issueKey x == t) = false := by
      revert hx
      cases issueKey x == t <;> simp
    simp [List.filter_append, List.filter_cons, hxf]

/-- Stability of the sort: for every timestamp value, the items carrying
it appear in the sorted list exactly in input order. -/
theorem sortByUpdatedDesc_stable (l : List Issue) (t : String) :
    (sortByUpdatedDesc l).filter (fun i => issueKey i == t) =
      l.filter (fun i => issueKey i == t) := by
  induction l with
  | nil => rfl
  | cons x xs ih =>
    show (insDesc x (sortByUpdatedDesc xs)).filter (fun i => issueKey i == t) = _
    rw [filter_insDesc, List.filter_cons]
    by_cases hx : issueKey x == t
    · simp only [hx, if_true, ih]
    · have hxf : (issueKey x == t) = false := by
        revert hx
        cases issueKey x == t <;> simp
      simp only [hxf, if_false, Bool.false_eq_true, ih]

/-- C5: `top_titles` yields at most `n` titles, drawn in order from the
stable descending sort of the items by their `updatedAt` string: the sort
is a permutation of the input, pairwise descending in the key (so two
items with distinct, correctly ordered timestamps are never reordered),
and items with equal timestamps keep their original input order. -/
theorem claim_C5_top_titles_sorted_stable (issues : List Issue) (n : Nat) :
    (top_titles issues n).length ≤ n ∧
    top_titles issues n =
      ((sortByUpdatedDesc issues).take n).map (fun i => i.identifier ++ ": " ++ i.title) ∧
    (sortByUpdatedDesc issues).Pairwise (fun a b => issueKey b ≤ issueKey a) ∧
    List.Perm (sortByUpdatedDesc issues) issues ∧
    ∀ t : String, (sortByUpdatedDesc issues).filter (fun i => issueKey i == t) =
      issues.filter (fun i => issueKey i == t) := by
  refine ⟨?_, rfl, sortByUpdatedDesc_pairwise issues, sortByUpdatedDesc_perm issues,
    fun t => sortByUpdatedDesc_stable issues t⟩
  unfold top_titles
  rw [List.length_map, List.length_take]
  exact min_le_left _ _

/-! ## Helper lemmas for the weekly-log append -/

/-- A successful insertion splits the block list at the first log heading
and puts the entry right after it. -/
theorem insertEntry_eq_some {e : NotionBlock} :
    ∀ {bs r : List NotionBlock}, insertEntry e bs = some r →
      ∃ p h q, isLogHeading h = true ∧ bs = p ++ h :: q ∧ r = p ++ h :: e :: q := by
  intro bs
  induction bs with
  | nil => intro r hr; exact absurd hr (by simp [insertEntry])
  | cons b bs ih =>
    intro r hr
    unfold insertEntry at hr
    by_cases hb : isLogHeading b
    · rw [if_pos hb] at hr
      refine ⟨[], b, bs, hb, rfl, ?_⟩
      simpa using hr.symm
    · rw [if_neg hb] at hr
      rcases Option.map_eq_some'.1 hr with ⟨r2, hr2, hcons⟩
      obtain ⟨p, h, q, hh, hbs, hr2eq⟩ := ih hr2
      exact ⟨b :: p, h, q, hh, by rw [List.cons_append, hbs],
        by rw [← hcons, hr2eq, List.cons_append]⟩

/-- Insertion succeeds whenever some block is a log heading. -/
theorem insertEntry_isSome {e : NotionBlock} :
    ∀ {bs : List NotionBlock}, (∃ b ∈ bs, isLogHeading b = true) →
      (insertEntry e bs).isSome = true := by
  intro bs
  induction bs with
  | nil => rintro ⟨b, hb, _⟩; exact absurd hb (List.not_mem_nil b)
  | cons c bs ih =>
    rintro ⟨b, hb, hhead⟩
    unfold insertEntry
    by_cases hc : isLogHeading c
    · simp [hc]
    · rcases List.mem_cons.1 hb with hbc | hbs
      · rw [hbc] at hhead; exact absurd hhead hc
      · rw [if_neg hc]
        have := ih ⟨b, hbs, hhead⟩
        rcases hr : insertEntry e bs with _ | r2
        · rw [hr] at this; exact absurd this (by simp)
        · simp

/-- Inserting a bulleted entry adds exactly one block with its title. -/
theorem countTitled_insertEntry {t : String} {ch : List String} {bs r : List NotionBlock}
    (hr : insertEntry (NotionBlock.bullet t ch) bs = some r) :
    countTitled t r = countTitled t bs + 1 := by
  obtain ⟨p, h, q, _, hbs, hreq⟩ := insertEntry_eq_some hr
  rw [hreq, hbs]
  simp only [countTitled, List.countP_append, List.countP_cons, beq_self_eq_true, if_true]
  omega

/-- Insertion never removes or reorders existing blocks. -/
theorem sublist_insertEntry {e : NotionBlock} {bs r : List NotionBlock}
    (hr : insertEntry e bs = some r) : List.Sublist bs r := by
  obtain ⟨p, h, q, _, hbs, hreq⟩ := insertEntry_eq_some hr
  rw [hreq, hbs]
  exact (List.append_sublist_append_left p).2
    (List.Sublist.cons₂ h (List.sublist_cons_self e q))

/-- The freshly created heading block satisfies the heading test. -/
theorem isLogHeading_new : isLogHeading (NotionBlock.heading3 [HEADER]) = true := by decide

/-- A failed insertion means no block is a log heading. -/
theorem insertEntry_none_no_heading {e : NotionBlock} :
    ∀ {bs : List NotionBlock}, insertEntry e bs = none →
      ∀ b ∈ bs, isLogHeading b = false := by
  intro bs
  induction bs with
  | nil => intro _ b hb; exact absurd hb (List.not_mem_nil b)
  | cons c cs ih =>
    intro hnone b hb
    unfold insertEntry at hnone
    by_cases hc : isLogHeading c
    · rw [if_pos hc] at hnone; exact absurd hnone (by simp)
    · rw [if_neg hc] at hnone
      have hcs : insertEntry e cs = none := Option.map_eq_none'.1 hnone
      rcases List.mem_cons.1 hb with hbc | hbs
      · simp only [Bool.not_eq_true] at hc
        rw [hbc]
        exact hc
      · exact ih hcs b hbs

/-- When no block is a log heading, insertion fails. -/
theorem insertEntry_eq_none_of_no_heading {e : NotionBlock} :
    ∀ {bs : List NotionBlock}, (∀ b ∈ bs, isLogHeading b = false) →
      insertEntry e bs = none := by
  intro bs
  induction bs with
  | nil => intro _; rfl
  | cons c cs ih =>
    intro hno
    unfold insertEntry
    have hc : isLogHeading c = false := hno c (List.mem_cons_self c cs)
    have hcs : insertEntry e cs = none :=
      ih (fun b hb => hno b (List.mem_cons_of_mem c hb))
    simp [hc, hcs]

/-- On a page with at least 100 top-level blocks and no log heading, the
append fails: the freshly created heading sits at the end of the page,
beyond the unpaginated 100-block refresh. -/
theorem notion_append_error_of_big_headingless (today label text : String)
    (blocks : List NotionBlock) (hno : ∀ b ∈ blocks, isLogHeading b = false)
    (hlen : 100 ≤ blocks.length) :
    notion_append_weekly_log_blocks today label text blocks =
      Except.error "Could not create/find Weekly Linear update log heading" := by
  have h1 : insertEntry (NotionBlock.bullet (today ++ " — " ++ label)
      (logEntryChildren text)) blocks = none := insertEntry_eq_none_of_no_heading hno
  have htake : (blocks ++ [NotionBlock.heading3 [HEADER]]).take 100 = blocks.take 100 :=
    List.take_append_of_le_length hlen
  have hany : ((blocks ++ [NotionBlock.heading3 [HEADER]]).take 100).any isLogHeading
      = false := by
    rw [htake, List.any_eq_false]
    intro b hb
    rw [hno b ((List.take_sublist 100 blocks).subset hb)]
    simp
  simp only [notion_append_weekly_log_blocks, h1, hany, Bool.false_eq_true, if_false]

/-- Appending the weekly log entry succeeds on every page that already
carries the log heading or has fewer than 100 top-level blocks, and the
entry lands after the first log heading of the (possibly extended) block
list. -/
theorem notion_append_ok (today label text : String) (blocks : List NotionBlock)
    (hok : (∃ b ∈ blocks, isLogHeading b = true) ∨ blocks.length < 100) :
    ∃ r, notion_append_weekly_log_blocks today label text blocks = Except.ok r ∧
      insertEntry (NotionBlock.bullet (today ++ " — " ++ label) (logEntryChildren text))
          blocks = some r ∨
      notion_append_weekly_log_blocks today label text blocks = Except.ok r ∧
      insertEntry (NotionBlock.bullet (today ++ " — " ++ label) (logEntryChildren text)) blocks
          = none ∧
      insertEntry (NotionBlock.bullet (today ++ " — " ++ label) (logEntryChildren text))
          (blocks ++ [NotionBlock.heading3 [HEADER]]) = some r := by
  rcases h1 : insertEntry (NotionBlock.bullet (today ++ " — " ++ label)
      (logEntryChildren text)) blocks with _ | r
  · have hnoh := insertEntry_none_no_heading h1
    have hlt : blocks.length < 100 := by
      rcases hok with ⟨b, hb, hhead⟩ | hlt
      · rw [hnoh b hb] at hhead
        exact absurd hhead (by simp)
      · exact hlt
    have htake : (blocks ++ [NotionBlock.heading3 [HEADER]]).take 100 =
        blocks ++ [NotionBlock.heading3 [HEADER]] := by
      apply List.take_of_length_le
      rw [List.length_append, List.length_singleton]
      omega
    have hany : ((blocks ++ [NotionBlock.heading3 [HEADER]]).take 100).any isLogHeading
        = true := by
      rw [htake, List.any_append]
      simp [isLogHeading_new]
    have hsome := @insertEntry_isSome
      (NotionBlock.bullet (today ++ " — " ++ label) (logEntryChildren text))
      (blocks ++ [NotionBlock.heading3 [HEADER]])
      ⟨NotionBlock.heading3 [HEADER], by simp, isLogHeading_new⟩
    rcases h2 : insertEntry (NotionBlock.bullet (today ++ " — " ++ label)
        (logEntryChildren text)) (blocks ++ [NotionBlock.heading3 [HEADER]]) with _ | r2
    · rw [h2] at hsome; exact absurd hsome (by simp)
    · refine ⟨r2, Or.inr ⟨?_, rfl, rfl⟩⟩
      simp only [notion_append_weekly_log_blocks, h1, hany, if_true, h2]
  · refine ⟨r, Or.inl ⟨?_, rfl⟩⟩
    simp only [notion_append_weekly_log_blocks]
    rw [h1]

/-- Appending a second time to a page that already received one entry
succeeds and adds one more entry with the same title. -/
theorem notion_append_second {today label text : String} {bs r : List NotionBlock}
    (hins : insertEntry (NotionBlock.bullet (today ++ " — " ++ label)
      (logEntryChildren text)) bs = some r) :
    ∃ r2, notion_append_weekly_log_blocks today label text r = Except.ok r2 ∧
      countTitled (today ++ " — " ++ label) r2 =
        countTitled (today ++ " — " ++ label) r + 1 := by
  obtain ⟨p, h, q, hh, _, hreq⟩ := insertEntry_eq_some hins
  have hmem : h ∈ r := by
    rw [hreq]
    exact List.mem_append_right p (List.mem_cons_self h _)
  have hs2 := @insertEntry_isSome
    (NotionBlock.bullet (today ++ " — " ++ label) (logEntryChildren text)) r ⟨h, hmem, hh⟩
  rcases h2 : insertEntry (NotionBlock.bullet (today ++ " — " ++ label)
      (logEntryChildren text)) r with _ | r2
  · rw [h2] at hs2; exact absurd hs2 (by simp)
  · refine ⟨r2, ?_, countTitled_insertEntry h2⟩
    simp only [notion_append_weekly_log_blocks]
    rw [h2]

/-- The derived child lines are capped at 20 entries of at most 2000
characters each. -/
theorem logEntryChildren_bounds (text : String) :
    (logEntryChildren text).length ≤ 20 ∧ ∀ cl ∈ logEntryChildren text, cl.length ≤ 2000 := by
  constructor
  · simp only [logEntryChildren, List.length_map, List.length_take]
    exact min_le_left _ _
  · intro cl hcl
    simp only [logEntryChildren, List.mem_map] at hcl
    obtain ⟨x, _, hx⟩ := hcl
    have hlen : (x.data.take 2000).length ≤ 2000 := by
      rw [List.length_take]; exact min_le_left _ _
    rw [← hx]
    exact hlen

/-- A fresh heading block contributes no log entries to the count. -/
theorem countTitled_append_heading (t : String) (bs : List NotionBlock) :
    countTitled t (bs ++ [NotionBlock.heading3 [HEADER]]) = countTitled t bs := by
  simp [countTitled, List.countP_append, List.countP_cons]

/-- C7 counterexample: with report text `"  hello  "` the single child
stored under the new log entry is the stripped line `hello`, not the
non-blank line `"  hello  "` itself (truncation to 2000 characters leaves
that line unchanged), so children are not literally the non-blank lines
of the report text. -/
theorem claim_C7_counterexample :
    notion_append_weekly_log_blocks "2026-10-12" "Proj" "  hello  "
        [NotionBlock.heading3 [HEADER]] =
      Except.ok [NotionBlock.heading3 [HEADER],
        NotionBlock.bullet "2026-10-12 — Proj" ["hello"]] ∧
    ("hello" : String) ≠ strTrunc 2000 "  hello  " :=
  ⟨rfl, by decide⟩

/-- C7 (amended): on a page that already carries the log heading or has
fewer than 100 top-level blocks, each append inserts, directly after the
first log heading (created at the end of the page when missing), exactly
one new log entry titled `{today} — {label}` whose children are the
stripped non-blank lines of the report text, at most 20 of them, each
truncated to 2000 characters; no existing block is deleted or reordered,
and a second append on the same day adds a second entry with the same
title.  On a page with at least 100 top-level blocks and no log heading
the operation instead fails: the unpaginated post-creation refresh reads
only the first 100 blocks and misses the heading it just created at the
end of the page. -/
theorem claim_C7_append_log_entry (today label text : String) (blocks : List NotionBlock)
    (hfits : (∃ b ∈ blocks, isLogHeading b = true) ∨ blocks.length < 100) :
    ∃ r r2,
      notion_append_weekly_log_blocks today label text blocks = Except.ok r ∧
      notion_append_weekly_log_blocks today label text r = Except.ok r2 ∧
      List.Sublist blocks r ∧
      (∃ p h q, isLogHeading h = true ∧
        (p ++ h :: q = blocks ∨ p ++ h :: q = blocks ++ [NotionBlock.heading3 [HEADER]]) ∧
        r = p ++ h :: NotionBlock.bullet (today ++ " — " ++ label)
          (logEntryChildren text) :: q) ∧
      countTitled (today ++ " — " ++ label) r =
        countTitled (today ++ " — " ++ label) blocks + 1 ∧
      countTitled (today ++ " — " ++ label) r2 =
        countTitled (today ++ " — " ++ label) blocks + 2 ∧
      (logEntryChildren text).length ≤ 20 ∧
      (∀ cl ∈ logEntryChildren text, cl.length ≤ 2000) ∧
      notion_append_weekly_log_blocks today label text
          (List.replicate 100 (NotionBlock.other "b")) =
        Except.error "Could not create/find Weekly Linear update log heading" := by
  have herr : notion_append_weekly_log_blocks today label text
      (List.replicate 100 (NotionBlock.other "b")) =
      Except.error "Could not create/find Weekly Linear update log heading" := by
    apply notion_append_error_of_big_headingless
    · intro b hb
      rw [List.eq_of_mem_replicate hb]
      rfl
    · simp
  obtain ⟨r, hcase⟩ := notion_append_ok today label text blocks hfits
  rcases hcase with ⟨hok, hins⟩ | ⟨hok, _, hins⟩
  · obtain ⟨r2, hok2, hcount2⟩ := notion_append_second hins
    obtain ⟨p, h, q, hh, hbs, hreq⟩ := insertEntry_eq_some hins
    have hcount1 := countTitled_insertEntry hins
    refine ⟨r, r2, hok, hok2, sublist_insertEntry hins,
      ⟨p, h, q, hh, Or.inl hbs.symm, hreq⟩, hcount1, ?_,
      (logEntryChildren_bounds text).1, (logEntryChildren_bounds text).2, herr⟩
    rw [hcount2, hcount1]
  · obtain ⟨r2, hok2, hcount2⟩ := notion_append_second hins
    obtain ⟨p, h, q, hh, hbs, hreq⟩ := insertEntry_eq_some hins
    have hcount1 : countTitled (today ++ " — " ++ label) r =
        countTitled (today ++ " — " ++ label) blocks + 1 := by
      rw [countTitled_insertEntry hins, countTitled_append_heading]
    refine ⟨r, r2, hok, hok2, ?_,
      ⟨p, h, q, hh, Or.inr hbs.symm, hreq⟩, hcount1, ?_,
      (logEntryChildren_bounds text).1, (logEntryChildren_bounds text).2, herr⟩
    · exact List.Sublist.trans (List.sublist_append_left blocks [NotionBlock.heading3 [HEADER]])
        (sublist_insertEntry hins)
    · rw [hcount2, hcount1]

/-- C7 witness: a concrete append onto a single-heading page, which has
fewer than 100 top-level blocks. -/
theorem claim_C7_witness :
    ([NotionBlock.heading3 [HEADER]] : List NotionBlock).length < 100 ∧
    ∃ r r2,
      notion_append_weekly_log_blocks "2026-10-12" "Proj" "line1\nline2"
          [NotionBlock.heading3 [HEADER]] = Except.ok r ∧
      notion_append_weekly_log_blocks "2026-10-12" "Proj" "line1\nline2" r = Except.ok r2 ∧
      List.Sublist [NotionBlock.heading3 [HEADER]] r ∧
      (∃ p h q, isLogHeading h = true ∧
        (p ++ h :: q = [NotionBlock.heading3 [HEADER]] ∨
          p ++ h :: q = [NotionBlock.heading3 [HEADER]] ++ [NotionBlock.heading3 [HEADER]]) ∧
        r = p ++ h :: NotionBlock.bullet ("2026-10-12" ++ " — " ++ "Proj")
          (logEntryChildren "line1\nline2") :: q) ∧
      countTitled ("2026-10-12" ++ " — " ++ "Proj") r =
        countTitled ("2026-10-12" ++ " — " ++ "Proj") [NotionBlock.heading3 [HEADER]] + 1 ∧
      countTitled ("2026-10-12" ++ " — " ++ "Proj") r2 =
        countTitled ("2026-10-12" ++ " — " ++ "Proj") [NotionBlock.heading3 [HEADER]] + 2 ∧
      (logEntryChildren "line1\nline2").length ≤ 20 ∧
      (∀ cl ∈ logEntryChildren "line1\nline2", cl.length ≤ 2000) ∧
      notion_append_weekly_log_blocks "2026-10-12" "Proj" "line1\nline2"
          (List.replicate 100 (NotionBlock.other "b")) =
        Except.error "Could not create/find Weekly Linear update log heading" :=
  ⟨by decide,
    claim_C7_append_log_entry "2026-10-12" "Proj" "line1\nline2" [NotionBlock.heading3 [HEADER]]
      (Or.inr (by decide))⟩

end SyncOkrs
